import Mathlib

/-!
Shallow embedding of the Mini SQL database engine (src/parser.py and
src/engine.py).

The parser (`parse`) and the executor (`executeParsed` / `execute`) are
translated function by function from the Python source.  Python strings are
Lean `String`s manipulated through character-list primitives so that every
definition is executable by the kernel; Python `int`/`float`/`str` scalars
become the `Value` inductive (floats are modelled as rationals, which is exact
for every decimal literal the source can parse); Python `None` (SQL Null) is
`Option.none`; Python exceptions become the `PyError` error type of an
`Except` result, including the uncaught `ValueError`/`IndexError` that the
source can raise from tuple unpacking and list indexing.
-/

namespace MiniSQL

/-- Decidable equality of `Except` results, so that concrete runs of the
parser and executor can be checked by `decide`. -/
instance {ε α : Type} [DecidableEq ε] [DecidableEq α] : DecidableEq (Except ε α) := fun x y =>
  match x, y with
  | .error a, .error b =>
    if h : a = b then isTrue (congrArg Except.error h)
    else isFalse (fun hh => h (Except.error.inj hh))
  | .ok a, .ok b =>
    if h : a = b then isTrue (congrArg Except.ok h)
    else isFalse (fun hh => h (Except.ok.inj hh))
  | .error _, .ok _ => isFalse (fun hh => Except.noConfusion hh)
  | .ok _, .error _ => isFalse (fun hh => Except.noConfusion hh)

/-- One scalar cell or literal: Python `int`, `float` (modelled as a
rational) or `str`.  A nullable cell is an `Option Value`, with `none`
standing for Python `None`. -/
inductive Value where
  | int (n : Int)
  | float (q : Rat)
  | str (s : String)
deriving DecidableEq, Repr

/-- Errors the Python code can raise while parsing or executing: the
`SQLParseError`, `TableNotFoundError` and `ColumnError` exception classes of
the source, plus the builtin `ValueError` (failed tuple unpacking) and
`IndexError` (out-of-range list index) that can escape uncaught. -/
inductive PyError where
  | sqlParse (msg : String)
  | tableNotFound (msg : String)
  | columnError (msg : String)
  | valueError
  | indexError
deriving DecidableEq, Repr

/-! ### Character-level string primitives

These model the Python `str` operations the source uses.  Python's `\s` and
`str.strip()` also accept `\f`/`\v`, which `Char.isWhitespace` does not; the
grammar never produces those characters after normalization, and no claim
exercises them. -/

/-- Prepend a character to the first chunk of a chunk list (helper for the
split functions). -/
def consHead (c : Char) : List (List Char) → List (List Char)
  | [] => [[c]]
  | p :: ps => (c :: p) :: ps

/-- Bool-valued prefix test on character lists. -/
def isPrefixChars : List Char → List Char → Bool
  | [], _ => true
  | _ :: _, [] => false
  | a :: as, b :: bs => a == b && isPrefixChars as bs

/-- Substring containment on character lists (Python `pat in s`). -/
def containsChars (pat : List Char) : List Char → Bool
  | [] => isPrefixChars pat []
  | l@(_ :: rest) => isPrefixChars pat l || containsChars pat rest

/-- Python `pat in s`. -/
def containsStr (s pat : String) : Bool :=
  containsChars pat.toList s.toList

/-- Split at the first occurrence of `pat`; `none` when `pat` is absent.
Models Python `s.split(pat, 1)` together with a two-name tuple unpacking,
which raises `ValueError` exactly when the split yields a single part. -/
def splitOnceChars (pat : List Char) : List Char → Option (List Char × List Char)
  | [] => if isPrefixChars pat [] then some ([], []) else none
  | l@(c :: rest) =>
    if isPrefixChars pat l then some ([], l.drop pat.length)
    else
      match splitOnceChars pat rest with
      | some (a, b) => some (c :: a, b)
      | none => none

/-- String version of `splitOnceChars`. -/
def splitOnceStr (s pat : String) : Option (String × String) :=
  (splitOnceChars pat.toList s.toList).map (fun p => (String.mk p.1, String.mk p.2))

/-- Split at every character satisfying `p` (Python `str.split(sep)` with a
one-character separator, keeping empty parts). -/
def splitByChar (p : Char → Bool) : List Char → List (List Char)
  | [] => [[]]
  | c :: rest => if p c then [] :: splitByChar p rest else consHead c (splitByChar p rest)

/-- Python `",".join`-style join with a single space. -/
def joinSpace : List (List Char) → List Char
  | [] => []
  | [l] => l
  | l :: ls => l ++ ' ' :: joinSpace ls

/-- Models `normalize_whitespace` (parser.py): collapse whitespace runs to one space
and strip the ends (`re.sub(r"\s+", " ", s).strip()`). -/
def normalizeWhitespace (s : String) : String :=
  String.mk (joinSpace ((splitByChar Char.isWhitespace s.toList).filter (fun l => !l.isEmpty)))

/-- Python `s.strip()`. -/
def trimChars (l : List Char) : List Char :=
  ((l.dropWhile Char.isWhitespace).reverse.dropWhile Char.isWhitespace).reverse

/-- Python `s.strip()` on `String`. -/
def pyTrim (s : String) : String := String.mk (trimChars s.toList)

/-- Python `s.rstrip(";")`: drop every trailing semicolon. -/
def dropRightSemis (s : String) : String :=
  String.mk ((s.toList.reverse.dropWhile (fun c => c == ';')).reverse)

/-- Python `s.upper()` (ASCII; the grammar keywords are ASCII). -/
def pyUpper (s : String) : String := String.mk (s.toList.map Char.toUpper)

/-- Python `s.lower()` (ASCII). -/
def pyLower (s : String) : String := String.mk (s.toList.map Char.toLower)

/-- Python `s.startswith(pre)`. -/
def pyStartsWith (s pre : String) : Bool := isPrefixChars pre.toList s.toList

/-- Python `s.endswith(suf)`. -/
def pyEndsWith (s suf : String) : Bool := isPrefixChars suf.toList.reverse s.toList.reverse

/-- Python `s[n:]` (character slicing). -/
def strDrop (s : String) (n : Nat) : String := String.mk (s.toList.drop n)

/-- Python `s[:-n]`; on a string of at most `n` characters this is `""`,
matching Python slice semantics. -/
def strDropRight (s : String) (n : Nat) : String :=
  String.mk (s.toList.take (s.toList.length - n))

/-- Numeric value of a list of decimal digit characters. -/
def natOfDigits (l : List Char) : Nat :=
  l.foldl (fun a c => a * 10 + (c.toNat - 48)) 0

/-- Python `int(s)` on an already-stripped string: optional sign followed by
decimal digits.  (CPython additionally allows underscores between digits and
non-ASCII digits; the source never produces such literals.) -/
def pythonInt (s : String) : Option Int :=
  match s.toList with
  | [] => none
  | '-' :: ds =>
    if ds ≠ [] ∧ ds.all Char.isDigit then some (-(natOfDigits ds : Int)) else none
  | '+' :: ds =>
    if ds ≠ [] ∧ ds.all Char.isDigit then some ((natOfDigits ds : Int)) else none
  | ds =>
    if ds.all Char.isDigit then some ((natOfDigits ds : Int)) else none

/-- Python `float(s)` on an already-stripped string, for the decimal forms
the source can reach: optional sign, digits, optional point and fraction
digits, at least one digit overall.  (CPython additionally accepts exponent,
`inf` and `nan` forms; no claim exercises those.)  The result is the exact
rational value of the decimal literal. -/
def pythonFloat (s : String) : Option Rat :=
  let signed : Int × List Char :=
    match s.toList with
    | '-' :: r => (-1, r)
    | '+' :: r => (1, r)
    | r => (1, r)
  let ip := signed.2.takeWhile Char.isDigit
  let rest := signed.2.dropWhile Char.isDigit
  match rest with
  | [] => if ip = [] then none else some (mkRat (signed.1 * (natOfDigits ip : Int)) 1)
  | '.' :: frac =>
    if frac.all Char.isDigit ∧ (ip ≠ [] ∨ frac ≠ []) then
      some (mkRat
        (signed.1 * ((natOfDigits ip * Nat.pow 10 frac.length + natOfDigits frac : Nat) : Int))
        (Nat.pow 10 frac.length))
    else none
  | _ => none

/-- One character of the regex class `[A-Za-z0-9_]`. -/
def isIdentChar (c : Char) : Bool := c.isAlpha || c.isDigit || c == '_'

/-- The identifier regex `^[A-Za-z_][A-Za-z0-9_]*$` of parser.py. -/
def isIdentifier (s : String) : Bool :=
  match s.toList with
  | [] => false
  | c :: rest => (c.isAlpha || c == '_') && rest.all isIdentChar

/-- The bare-word regex `^[A-Za-z0-9_]+$` of parser.py. -/
def isBareWord (s : String) : Bool :=
  !s.toList.isEmpty && s.toList.all isIdentChar

/-! ### Parser (parser.py) -/

/-- The list `COMPARISON_OPS` (parser.py line 4), in its priority order. -/
def COMPARISON_OPS : List String := [">=", "<=", "!=", "=", ">", "<"]

/-- The `select` dict built by `parse`: `{"type": ..., "cols": ...,
"count_col": ...}`.  `parse` always sets `typ` to `"count"` or `"cols"`. -/
structure SelectClause where
  typ : String
  cols : Option (List String)
  count_col : Option String
deriving DecidableEq, Repr

/-- The `where` dict built by `parse`: `{"col": ..., "op": ..., "val": ...,
"val_type": ...}` with `val_type` one of `"num"`, `"str"`. -/
structure WhereClause where
  col : String
  op : String
  val : Value
  val_type : String
deriving DecidableEq, Repr

/-- The dict returned by `parse`: `{"select": ..., "from": ..., "where": ...}`
(`from`/`where` renamed because they are Lean keywords). -/
structure Query where
  select : SelectClause
  fromT : String
  whereC : Option WhereClause
deriving DecidableEq, Repr

/-- Models `re.split(r"\sWHERE\s", raw_rest, flags=re.IGNORECASE)` on the character
list: split at every non-overlapping, left-to-right occurrence of
whitespace-`WHERE`-whitespace, the `WHERE` letters matched case-insensitively,
the two whitespace characters consumed with the separator. -/
def reSplitWhere : List Char → List (List Char)
  | a :: b :: c :: d :: e :: f :: g :: rest =>
    if a.isWhitespace && b.toUpper == 'W' && c.toUpper == 'H' && d.toUpper == 'E' &&
        e.toUpper == 'R' && f.toUpper == 'E' && g.isWhitespace then
      [] :: reSplitWhere rest
    else
      consHead a (reSplitWhere (b :: c :: d :: e :: f :: g :: rest))
  | l => [l]

/-- String version of `reSplitWhere`. -/
def reSplitWhereStr (s : String) : List String :=
  (reSplitWhere s.toList).map (fun l => String.mk l)

/-- parser.py lines 36-44: split the text after FROM into the table segment
and the optional WHERE body.  The guard is `" WHERE " in raw_rest.upper()`;
when it holds the regex split is applied and only `parts[0]` and `parts[1]`
are used (`parts[1]` missing would be an `IndexError`). -/
def whereSplit (rawRest : String) : Except PyError (String × Option String) :=
  if containsChars (" WHERE ".toList) (rawRest.toList.map Char.toUpper) then
    match reSplitWhereStr rawRest with
    | p0 :: p1 :: _ => .ok (pyTrim p0, some (pyTrim p1))
    | _ => .error .indexError
  else .ok (pyTrim rawRest, none)

/-- The regex `COUNT\(\s*(\*|[A-Za-z_][A-Za-z0-9_]*)\s*\)$` of parser.py
line 56 (with `re.IGNORECASE`, anchored on both sides); returns the capture
group on success. -/
def parseCountBody (body : String) : Option String :=
  let l := body.toList
  if isPrefixChars ("COUNT(".toList) (l.map Char.toUpper) then
    let rest1 := (l.drop 6).dropWhile Char.isWhitespace
    match rest1 with
    | '*' :: rest2 =>
      if rest2.dropWhile Char.isWhitespace == [')'] then some "*" else none
    | c :: rest2 =>
      if c.isAlpha || c == '_' then
        if (rest2.dropWhile isIdentChar).dropWhile Char.isWhitespace == [')'] then
          some (String.mk (c :: rest2.takeWhile isIdentChar))
        else none
      else none
    | [] => none
  else none

/-- Python `select_body.split(",")`. -/
def splitCommaStr (s : String) : List String :=
  (splitByChar (fun c => c == ',') s.toList).map (fun l => String.mk l)

/-- parser.py lines 52-82: parse the SELECT section.  Note the column list
comprehension `[c.strip().lower() for c in select_body.split(",") if c.strip()]`
silently discards pieces that are empty after trimming. -/
def parseSelect (body : String) : Except PyError SelectClause :=
  if isPrefixChars ("COUNT(".toList) (body.toList.map Char.toUpper) then
    match parseCountBody body with
    | none => .error (.sqlParse "Invalid COUNT() syntax")
    | some g => .ok ⟨"count", none, some (pyLower g)⟩
  else if body = "*" then .ok ⟨"cols", some ["*"], none⟩
  else
    let cols :=
      ((splitCommaStr body).filter (fun c => decide (pyTrim c ≠ ""))).map
        (fun c => pyLower (pyTrim c))
    if cols = [] then .error (.sqlParse "No columns specified in SELECT")
    else
      match cols.find? (fun c => !(isIdentifier c)) with
      | some c => .error (.sqlParse s!"Invalid column name: {c}")
      | none => .ok ⟨"cols", some cols, none⟩

/-- parser.py lines 89-93: scan `COMPARISON_OPS` in order and keep the first
operator occurring as a substring of the WHERE body. -/
def findOp (whereBody : String) : Option String :=
  COMPARISON_OPS.find? (fun c => containsStr whereBody c)

/-- parser.py lines 88-126: parse the WHERE body into a `WhereClause`. -/
def parseWhere (whereBody : String) : Except PyError WhereClause :=
  match findOp whereBody with
  | none => .error (.sqlParse "WHERE must contain a comparison operator")
  | some op =>
    match splitOnceStr whereBody op with
    | none => .error .valueError
    | some (left, right) =>
      let col := pyLower (pyTrim left)
      let rawVal := pyTrim right
      if isIdentifier col then
        if pyStartsWith rawVal "\x27" && pyEndsWith rawVal "\x27" then
          .ok ⟨col, op, .str (strDropRight (strDrop rawVal 1) 1), "str"⟩
        else
          match
            (if containsStr rawVal "." then (pythonFloat rawVal).map Value.float
             else (pythonInt rawVal).map Value.int) with
          | some v => .ok ⟨col, op, v, "num"⟩
          | none =>
            if isBareWord rawVal then .ok ⟨col, op, .str rawVal, "str"⟩
            else .error (.sqlParse "WHERE value must be number or string")
      else .error (.sqlParse s!"Invalid column in WHERE: {col}")

/-- Models `parse` (parser.py lines 12-133). -/
def parse (sql : String) : Except PyError Query :=
  if pyTrim sql = "" then .error (.sqlParse "Empty SQL")
  else
    let s := normalizeWhitespace (dropRightSemis (pyTrim sql))
    if !(pyStartsWith (pyUpper s) "SELECT ") then
      .error (.sqlParse "Query must start with SELECT")
    else if !(containsStr (pyUpper s) " FROM ") then
      .error (.sqlParse "Missing FROM clause")
    else
      match (if containsStr s " from " then splitOnceStr s " from "
             else splitOnceStr s " FROM ") with
      | none => .error .valueError
      | some (rawSelectPart, rawRest) =>
        let selectBody := pyTrim (strDrop rawSelectPart 7)
        match whereSplit rawRest with
        | .error e => .error e
        | .ok (fromPart, whereBody) =>
          let tableName := pyLower fromPart
          match parseSelect selectBody with
          | .error e => .error e
          | .ok sel =>
            match whereBody with
            | some wb =>
              if wb = "" then .ok ⟨sel, tableName, none⟩
              else
                match parseWhere wb with
                | .error e => .error e
                | .ok w => .ok ⟨sel, tableName, some w⟩
            | none => .ok ⟨sel, tableName, none⟩

/-! ### Executor (engine.py)

A table is an ordered row list; a row is an ordered mapping from original-case
column name to a nullable scalar (Python dict of the loader).  The registry
`self.tables` is an ordered association list from lowercased table name to its
rows. -/

/-- A row: Python `dict` from column name to nullable scalar. -/
abbrev Row := List (String × Option Value)

/-- The registry `self.tables`. -/
abbrev Tables := List (String × List Row)

/-- Python `row.get(c)`: `None` both for a missing key and a stored `None`. -/
def rowGet (r : Row) (c : String) : Option Value :=
  match r with
  | [] => none
  | (k, v) :: rest => if k = c then v else rowGet rest c

/-- Python `list(row.keys())`. -/
def rowKeys (r : Row) : List String := r.map Prod.fst

/-- Registry lookup (`self.tables.get(key)` / `key in self.tables`). -/
def lookupTable (ts : Tables) (k : String) : Option (List Row) :=
  match ts with
  | [] => none
  | (n, rows) :: rest => if n = k then some rows else lookupTable rest k

/-- Python `x in l` on a string list. -/
def memStr (x : String) : List String → Bool
  | [] => false
  | y :: ys => if y = x then true else memStr x ys

/-- Python `l.index(x)` (meaningful only when `memStr x l = true`). -/
def idxOf (x : String) : List String → Nat
  | [] => 0
  | y :: ys => if y = x then 0 else idxOf x ys + 1

/-- Python `l[n]` with a default (indices produced by `idxOf` after a
membership test are always in range). -/
def nthStr (l : List String) (n : Nat) : String := l.getD n ""

/-- The `ColumnError` message `f"Column '{c}' not found in table"`. -/
def columnMsg (c : String) : String := s!"Column \x27{c}\x27 not found in table"

/-- The loop of `_resolve_columns_case_insensitive` (engine.py lines 80-87):
`'*'` replaces the accumulator with all actual columns and breaks; otherwise
each requested name is resolved case-insensitively to the first matching
actual column, and an unmatched name raises `ColumnError`. -/
def resolveLoop (actual lowerActual : List String) : List String → Except PyError (List String)
  | [] => .ok []
  | rc :: rest =>
    if rc = "*" then .ok actual
    else if memStr (pyLower rc) lowerActual then
      match resolveLoop actual lowerActual rest with
      | .ok tl => .ok (nthStr actual (idxOf (pyLower rc) lowerActual) :: tl)
      | .error e => .error e
    else .error (.columnError (columnMsg rc))

/-- Models `_resolve_columns_case_insensitive` (engine.py lines 68-88): with no rows
the requested names are returned verbatim. -/
def resolveColumns (rows : List Row) (req : List String) : Except PyError (List String) :=
  match rows with
  | [] => .ok req
  | r0 :: _ => resolveLoop (rowKeys r0) ((rowKeys r0).map pyLower) req

/-- engine.py lines 138-142: resolve the predicate column to the real column
name of the first row (meaningful when the membership test of `_apply_where`
succeeded). -/
def resolveReal (rows : List Row) (col : String) : String :=
  match rows with
  | [] => ""
  | r0 :: _ => nthStr (rowKeys r0) (idxOf (pyLower col) ((rowKeys r0).map pyLower))

/-- The numeric coercion of a cell (engine.py line 175): a string containing
`.` goes through `float`, an all-digit string or an int through `int`, and
everything else through `float`; a failed conversion yields `none` (the row is
then skipped).  Ints and floats are compared exactly, so both coerce to the
same `Rat` carrier. -/
def coerceNum : Value → Option Rat
  | .str s =>
    if containsStr s "." then pythonFloat s
    else if s.toList ≠ [] ∧ s.toList.all Char.isDigit then (pythonInt s).map (fun n => (n : Rat))
    else pythonFloat s
  | .int n => some ((n : Rat))
  | .float q => some q

/-- Python `float(val)` on the parsed operand (engine.py line 179).  `parse` only
produces `val_type = "num"` together with an int or float operand, so the
`str` case (which would raise in Python) is given a harmless total value. -/
def floatOfVal : Value → Rat
  | .int n => (n : Rat)
  | .float q => q
  | .str s => (pythonFloat s).getD 0

/-- Python `str(cell)` for the text-operand comparison (engine.py line 181).
Stringification of a non-integral float is modelled only up to the rational
representation; no claim exercises it. -/
def pyStr : Value → String
  | .int n => toString n
  | .float q => if q.den = 1 then toString q.num ++ ".0" else toString q
  | .str s => s

/-- Models `compare` (engine.py lines 144-163) on two numbers.  The `left is None`
guard and the `except` arm of the source are unreachable on this carrier:
the caller already skipped `None` cells, and Python never raises when
comparing two numbers. -/
def compareRat (l : Rat) (op : String) (r : Rat) : Bool :=
  if op = "=" then decide (l = r)
  else if op = "!=" then decide (l ≠ r)
  else if op = ">" then decide (r < l)
  else if op = "<" then decide (l < r)
  else if op = ">=" then decide (r ≤ l)
  else if op = "<=" then decide (l ≤ r)
  else false

/-- Models `compare` on two strings (Python compares strings lexicographically by
code point, which is `String.lt`; comparing two strings never raises). -/
def compareStr (l : String) (op : String) (r : String) : Bool :=
  if op = "=" then decide (l = r)
  else if op = "!=" then decide (l ≠ r)
  else if op = ">" then decide (r < l)
  else if op = "<" then decide (l < r)
  else if op = ">=" then !(decide (l < r))
  else if op = "<=" then !(decide (r < l))
  else false

/-- The per-row body of the filtering loop of `_apply_where` (engine.py lines
166-185): a `None` cell never matches; a numeric operand compares the coerced
cell with `float(val)` (uncoercible cell: no match); a text operand compares
the stringified cell with the stringified operand. -/
def rowMatches (realCol : String) (w : WhereClause) (r : Row) : Bool :=
  match rowGet r realCol with
  | none => false
  | some cell =>
    if w.val_type = "num" then
      match coerceNum cell with
      | none => false
      | some lv => compareRat lv w.op (floatOfVal w.val)
    else compareStr (pyStr cell) w.op (pyStr w.val)

/-- Models `_apply_where` (engine.py lines 125-186). -/
def applyWhere (rows : List Row) (w : WhereClause) : Except PyError (List Row) :=
  match rows with
  | [] => .ok []
  | r0 :: rest =>
    if memStr (pyLower w.col) ((rowKeys r0).map pyLower) then
      .ok ((r0 :: rest).filter (rowMatches (resolveReal (r0 :: rest) w.col) w))
    else .error (.columnError (columnMsg w.col))

/-- The result dict `{'cols': ..., 'rows': ...}` of `Engine.execute`. -/
structure QueryResult where
  cols : List String
  rows : List (List (Option Value))
deriving DecidableEq, Repr

/-- The body of `Engine.execute` after table resolution (engine.py lines
93-123): WHERE filtering, then the COUNT aggregate or the projection. -/
def executeRows (rows0 : List Row) (q : Query) : Except PyError QueryResult :=
  match (match q.whereC with
         | some w => applyWhere rows0 w
         | none => Except.ok rows0) with
  | .error e => .error e
  | .ok rows =>
    if q.select.typ = "count" then
      let cc := q.select.count_col.getD ""
      if cc = "*" then .ok ⟨["COUNT(*)"], [[some (.int rows.length)]]⟩
      else if rows.length = 0 then .ok ⟨[s!"COUNT({cc})"], [[some (.int 0)]]⟩
      else
        match resolveColumns rows [cc] with
        | .error e => .error e
        | .ok res =>
          let resolved := res.headD ""
          .ok ⟨[s!"COUNT({cc})"],
               [[some (.int ((rows.filter (fun r => decide (rowGet r resolved ≠ none))).length))]]⟩
    else
      let cols := q.select.cols.getD []
      if cols = ["*"] then
        let outCols := match rows with | [] => [] | r0 :: _ => rowKeys r0
        .ok ⟨outCols, rows.map (fun r => outCols.map (fun c => rowGet r c))⟩
      else
        match (if rows.isEmpty then Except.ok cols else resolveColumns rows cols) with
        | .error e => .error e
        | .ok resolved =>
          .ok ⟨resolved, rows.map (fun r => resolved.map (fun c => rowGet r c))⟩

/-- The `TableNotFoundError` message of `_resolve_table` (engine.py line 65). -/
def tableMsg (name : String) : String :=
  s!"Table \x27{name}\x27 not loaded. Use .load <path> to load CSV (table name: {name})"

/-- Models `Engine.execute` on an already-parsed query: `_resolve_table` (the parser
already lowercases the table name; the engine lowercases again defensively)
followed by `executeRows`. -/
def executeParsed (ts : Tables) (q : Query) : Except PyError QueryResult :=
  match lookupTable ts (pyLower q.fromT) with
  | none => .error (.tableNotFound (tableMsg q.fromT))
  | some rows => executeRows rows q

/-- Models `Engine.execute` (engine.py lines 90-123): parse, then execute. -/
def execute (ts : Tables) (sql : String) : Except PyError QueryResult :=
  match parse sql with
  | .error e => .error e
  | .ok q => executeParsed ts q

/-- Models `_resolve_table` with the registry threaded as explicit state (the method
reads `self.tables` and never writes it). -/
def resolveTableSt (name : String) (ts : Tables) : Except PyError String × Tables :=
  let key := pyLower name
  if (lookupTable ts key).isSome then (.ok key, ts)
  else (.error (.tableNotFound (tableMsg name)), ts)

/-- Models `Engine.execute` with the registry threaded as explicit state: each
access to `self.tables` (the membership test inside `_resolve_table` and the
`self.tables[table_key]` read) goes through the current state, and the final
state is returned alongside the result. -/
def executeSt (sql : String) (ts : Tables) : Except PyError QueryResult × Tables :=
  match parse sql with
  | .error e => (.error e, ts)
  | .ok q =>
    match resolveTableSt q.fromT ts with
    | (.error e, ts1) => (.error e, ts1)
    | (.ok key, ts1) =>
      let rows := (lookupTable ts1 key).getD []
      (executeRows rows q, ts1)

/-! ### List-level helper lemmas -/

theorem memStr_iff (x : String) (l : List String) : memStr x l = true ↔ x ∈ l := by
  induction l with
  | nil => simp [memStr]
  | cons y ys ih =>
    by_cases h : y = x
    · subst h; simp [memStr]
    · rw [memStr, if_neg h, ih, List.mem_cons]
      constructor
      · exact Or.inr
      · rintro (rfl | hm)
        · exact absurd rfl h
        · exact hm

theorem memStr_lower_of_mem {c : String} {l : List String} (h : c ∈ l) :
    memStr (pyLower c) (l.map pyLower) = true :=
  (memStr_iff _ _).mpr (List.mem_map_of_mem _ h)

theorem idxOf_lt_of_memStr (x : String) (l : List String) (h : memStr x l = true) :
    idxOf x l < l.length := by
  induction l with
  | nil => simp [memStr] at h
  | cons y ys ih =>
    by_cases hy : y = x
    · rw [idxOf, if_pos hy]; simp
    · rw [memStr, if_neg hy] at h
      rw [idxOf, if_neg hy, List.length_cons]
      exact Nat.succ_lt_succ (ih h)

theorem nthStr_idxOf_self (x : String) (l : List String) (h : memStr x l = true) :
    nthStr l (idxOf x l) = x := by
  induction l with
  | nil => simp [memStr] at h
  | cons y ys ih =>
    by_cases hy : y = x
    · rw [idxOf, if_pos hy, nthStr, List.getD_cons_zero]; exact hy
    · rw [memStr, if_neg hy] at h
      rw [idxOf, if_neg hy, nthStr, List.getD_cons_succ]
      exact ih h

theorem nthStr_idxOf_lower (l : List String) (hnd : (l.map pyLower).Nodup)
    (c : String) (hc : c ∈ l) :
    nthStr l (idxOf (pyLower c) (l.map pyLower)) = c := by
  induction l with
  | nil => cases hc
  | cons y ys ih =>
    rw [List.map_cons] at hnd
    rcases List.mem_cons.mp hc with rfl | hc'
    · rw [List.map_cons, idxOf, if_pos rfl, nthStr, List.getD_cons_zero]
    · have hne : pyLower y ≠ pyLower c := by
        intro he
        exact (List.nodup_cons.mp hnd).1 (he ▸ List.mem_map_of_mem _ hc')
      rw [List.map_cons, idxOf, if_neg hne, nthStr, List.getD_cons_succ]
      exact ih (List.nodup_cons.mp hnd).2 hc'

theorem resolveLoop_self (l : List String) (hnd : (l.map pyLower).Nodup) :
    ∀ sub, (∀ c ∈ sub, c ∈ l) → (∀ c ∈ sub, c ≠ "*") →
      resolveLoop l (l.map pyLower) sub = .ok sub := by
  intro sub
  induction sub with
  | nil => intro _ _; rfl
  | cons c cs ih =>
    intro hmem hstar
    have h1 : c ≠ "*" := hstar c (by simp)
    have h2 : memStr (pyLower c) (l.map pyLower) = true :=
      memStr_lower_of_mem (hmem c (by simp))
    have h3 := ih (fun x hx => hmem x (List.mem_cons_of_mem _ hx))
      (fun x hx => hstar x (List.mem_cons_of_mem _ hx))
    rw [resolveLoop, if_neg h1, if_pos h2, h3, nthStr_idxOf_lower l hnd c (hmem c (by simp))]

theorem resolveLoop_sound (actual : List String) :
    ∀ sub res, (∀ c ∈ sub, c ≠ "*") →
      resolveLoop actual (actual.map pyLower) sub = .ok res →
      (∀ c ∈ res, c ∈ actual) ∧ res.map pyLower = sub.map pyLower := by
  intro sub
  induction sub with
  | nil =>
    intro res _ h
    rw [resolveLoop] at h
    injection h with h
    subst h
    exact ⟨by simp, by simp⟩
  | cons c cs ih =>
    intro res hstar h
    rw [resolveLoop, if_neg (hstar c (by simp))] at h
    by_cases hm : memStr (pyLower c) (actual.map pyLower) = true
    · rw [if_pos hm] at h
      cases hrec : resolveLoop actual (actual.map pyLower) cs with
      | error e => rw [hrec] at h; cases h
      | ok tl =>
        rw [hrec] at h
        injection h with h
        subst h
        obtain ⟨hmem, hmap⟩ := ih tl (fun x hx => hstar x (List.mem_cons_of_mem _ hx)) hrec
        have hlt : idxOf (pyLower c) (actual.map pyLower) < actual.length := by
          have := idxOf_lt_of_memStr _ _ hm
          simpa using this
        constructor
        · intro x hx
          rcases List.mem_cons.mp hx with rfl | hx'
          · rw [nthStr, List.getD_eq_getElem actual "" hlt]
            exact List.getElem_mem hlt
          · exact hmem x hx'
        · rw [List.map_cons, List.map_cons, hmap]
          congr 1
          rw [nthStr, List.getD_eq_getElem actual "" hlt]
          have hmaplen : idxOf (pyLower c) (actual.map pyLower) < (actual.map pyLower).length := by
            simpa using hlt
          have hself := nthStr_idxOf_self (pyLower c) (actual.map pyLower) hm
          rw [nthStr, List.getD_eq_getElem _ "" hmaplen] at hself
          rw [← List.getElem_map pyLower]
          exact hself
    · rw [if_neg hm] at h
      cases h

theorem applyWhere_length_le (rs : List Row) (wc : WhereClause) (f : List Row)
    (h : applyWhere rs wc = .ok f) : f.length ≤ rs.length := by
  cases rs with
  | nil =>
    rw [applyWhere] at h
    injection h with h
    subst h
    exact Nat.le_refl 0
  | cons r0 rest =>
    rw [applyWhere] at h
    by_cases hm : memStr (pyLower wc.col) ((rowKeys r0).map pyLower) = true
    · rw [if_pos hm] at h
      injection h with h
      subst h
      exact List.length_filter_le _ _
    · rw [if_neg hm] at h
      cases h

/-! ### Claim theorems -/

/-- C1 (code bug): the whitespace-normalized input `"SELECT a From t"` starts
with `SELECT` and contains `" From "`, a case-insensitive occurrence of
`" FROM "`, so the claim (and the case-insensitive FROM check of the code
itself) requires `parse` to split there and return a Query; instead the split
of parser.py line 32 handles only the exact casings `" from "` and `" FROM "`,
finds neither, and the two-name tuple unpacking raises an uncaught
`ValueError`. -/
theorem c1_from_mixed_case_value_error :
    parse "SELECT a From t" = .error .valueError := by decide

/-- C2 (counterexample): for the remainder `"t WHERE a = 1 WHERE b"` the
predicate segment used by `parse` is `"a = 1"` — the text between the first
and second WHERE — not the entire text `"a = 1 WHERE b"` after the first
occurrence as the claim states; consequently the whole query parses to a
numeric operand `1` instead of failing on the operand `"1 WHERE b"`. -/
theorem c2_counterexample :
    whereSplit "t WHERE a = 1 WHERE b" = .ok ("t", some "a = 1")
      ∧ splitOnceStr "t WHERE a = 1 WHERE b" " WHERE " = some ("t", "a = 1 WHERE b")
      ∧ ("a = 1" : String) ≠ "a = 1 WHERE b"
      ∧ parse "SELECT * FROM t WHERE a = 1 WHERE b" =
          .ok ⟨⟨"cols", some ["*"], none⟩, "t", some ⟨"a", "=", .int 1, "num"⟩⟩ := by
  refine ⟨by decide, by decide, by decide, by decide⟩

/-- C2 (amended): the remainder after FROM is split at every space-delimited
case-insensitive WHERE occurrence (non-overlapping, left to right) and only
the first two pieces are used: the table segment is piece 0 and the predicate
segment is piece 1 — the text between the first and second occurrences — with
everything from the second occurrence onward discarded. -/
theorem c2_amended_thm (rest p0 p1 : String) (ps : List String)
    (hg : containsChars (" WHERE ".toList) (rest.toList.map Char.toUpper) = true)
    (hsplit : reSplitWhereStr rest = p0 :: p1 :: ps) :
    whereSplit rest = .ok (pyTrim p0, some (pyTrim p1)) := by
  rw [whereSplit, if_pos hg, hsplit]

/-- C2 witness: the amended split claim at the two-WHERE remainder. -/
theorem c2_amended_witness :
    whereSplit "t WHERE a = 1 WHERE b" = .ok (pyTrim "t", some (pyTrim "a = 1")) :=
  c2_amended_thm "t WHERE a = 1 WHERE b" "t" "a = 1" ["b"] (by decide) (by decide)

/-- C3 (counterexample): `SELECT a,,b FROM t` has a comma piece that is empty
after trimming, yet `parse` succeeds with columns `["a", "b"]` instead of
rejecting the query with the invalid-column error. -/
theorem c3_counterexample :
    parse "SELECT a,,b FROM t" = .ok ⟨⟨"cols", some ["a", "b"], none⟩, "t", none⟩ := by
  decide

/-- C3 (amended): comma pieces that are empty after trimming are silently
discarded by the selection list comprehension before any validation; when at
least one nonempty piece survives and every surviving piece is a valid
identifier (after trimming and lowercasing), parsing the selection succeeds
with exactly the surviving pieces, and no invalid-column error is raised. -/
theorem c3_amended_thm (body : String)
    (hc : isPrefixChars ("COUNT(".toList) (body.toList.map Char.toUpper) = false)
    (hstar : body ≠ "*")
    (_hemp : (splitCommaStr body).any (fun c => decide (pyTrim c = "")) = true)
    (hkept : (splitCommaStr body).filter (fun c => decide (pyTrim c ≠ "")) ≠ [])
    (hval : ∀ c ∈ (splitCommaStr body).filter (fun c => decide (pyTrim c ≠ "")),
      isIdentifier (pyLower (pyTrim c)) = true) :
    parseSelect body =
      .ok ⟨"cols",
        some (((splitCommaStr body).filter (fun c => decide (pyTrim c ≠ ""))).map
          (fun c => pyLower (pyTrim c))), none⟩ := by
  have hcolsne :
      ((splitCommaStr body).filter (fun c => decide (pyTrim c ≠ ""))).map
        (fun c => pyLower (pyTrim c)) ≠ [] := by
    intro he
    exact hkept (List.map_eq_nil_iff.mp he)
  have hfind :
      (((splitCommaStr body).filter (fun c => decide (pyTrim c ≠ ""))).map
        (fun c => pyLower (pyTrim c))).find? (fun c => !(isIdentifier c)) = none := by
    apply List.find?_eq_none.mpr
    intro x hx
    obtain ⟨c, hcm, rfl⟩ := List.mem_map.mp hx
    simp [hval c hcm]
  have hc' : isPrefixChars ['C', 'O', 'U', 'N', 'T', '('] (List.map Char.toUpper body.data) = false :=
    hc
  rw [parseSelect]
  rw [if_neg (by simp [hc']), if_neg hstar]
  simp only [if_neg hcolsne, hfind]

/-- C3 witness: the amended selection rule at `"a,,b"`. -/
theorem c3_amended_witness :
    parseSelect "a,,b" =
      .ok ⟨"cols",
        some (((splitCommaStr "a,,b").filter (fun c => decide (pyTrim c ≠ ""))).map
          (fun c => pyLower (pyTrim c))), none⟩ :=
  c3_amended_thm "a,,b" (by decide) (by decide) (by decide) (by decide) (by decide)

/-- C6: the operator scan keeps the first member of
`[">=", "<=", "!=", "=", ">", "<"]` occurring as a substring of the WHERE
body — in particular whenever `">="` occurs it is always the chosen operator,
never `">"` — and parsing `SELECT x FROM t WHERE age >= 30` yields operator
`">="`, column `"age"` and the numeric operand `30`. -/
theorem c6_op_priority_thm :
    (∀ body : String, containsStr body ">=" = true → findOp body = some ">=")
      ∧ parse "SELECT x FROM t WHERE age >= 30" =
          .ok ⟨⟨"cols", some ["x"], none⟩, "t", some ⟨"age", ">=", .int 30, "num"⟩⟩ := by
  constructor
  · intro body h
    rw [findOp, COMPARISON_OPS]
    exact List.find?_cons_of_pos _ h
  · decide

/-- C6 witness: the priority rule applied at the body `"age >= 30"`. -/
theorem c6_witness : findOp "age >= 30" = some ">=" :=
  c6_op_priority_thm.1 "age >= 30" (by decide)

/-- C10: when the WHERE operand text trims to exactly one single-quote
character, it passes both the starts-with-quote and the ends-with-quote check,
the inner slice is empty, and the predicate parses successfully with an empty
text literal. -/
theorem c10_quote_thm (wb op l r : String)
    (hop : findOp wb = some op)
    (hsp : splitOnceStr wb op = some (l, r))
    (hr : pyTrim r = "\x27")
    (hcol : isIdentifier (pyLower (pyTrim l)) = true) :
    parseWhere wb = .ok ⟨pyLower (pyTrim l), op, .str "", "str"⟩ := by
  simp only [parseWhere, hop, hsp, hr]
  rw [if_pos hcol, if_pos (by decide :
    (pyStartsWith "\x27" "\x27" && pyEndsWith "\x27" "\x27") = true)]
  rw [show strDropRight (strDrop "\x27" 1) 1 = "" from by decide]

/-- C10 witness: the single-quote operand rule at the body `"a = '"`, plus the
full-query run the claim describes. -/
theorem c10_witness :
    parseWhere "a = \x27" = .ok ⟨"a", "=", .str "", "str"⟩
      ∧ parse "SELECT * FROM t WHERE a = \x27" =
          .ok ⟨⟨"cols", some ["*"], none⟩, "t", some ⟨"a", "=", .str "", "str"⟩⟩ :=
  ⟨c10_quote_thm "a = \x27" "=" "a " " \x27" (by decide) (by decide) (by decide) (by decide),
   by decide⟩

/-- C4: `SELECT COUNT(*) FROM t` (with an optional predicate that the engine
applies without error, keeping `frows` of the `rs` stored rows) returns the
single column `COUNT(*)` with a single row holding exactly the post-filter
row count `M = frows.length`; moreover `M ≤ N` and without a predicate the
count is exactly `N = rs.length`. -/
theorem c4_count_star_thm (ts : Tables) (t : String) (w : Option WhereClause)
    (rs frows : List Row)
    (hlook : lookupTable ts (pyLower t) = some rs)
    (hw : (match w with | some wc => applyWhere rs wc | none => Except.ok rs) = .ok frows) :
    executeParsed ts ⟨⟨"count", none, some "*"⟩, t, w⟩
        = .ok ⟨["COUNT(*)"], [[some (.int frows.length)]]⟩
      ∧ frows.length ≤ rs.length
      ∧ (w = none → frows = rs) := by
  refine ⟨?_, ?_, ?_⟩
  · simp only [executeParsed, hlook, executeRows, hw]
    simp [Option.getD]
  · cases w with
    | none =>
      simp only [Except.ok.injEq] at hw
      rw [hw]
    | some wc => exact applyWhere_length_le rs wc frows hw
  · intro hwn
    subst hwn
    simp only [Except.ok.injEq] at hw
    exact hw.symm

/-- C4 witness: counting with a predicate matching one of two rows. -/
theorem c4_witness :
    executeParsed [("t", [[("id", some (Value.int 1)), ("age", some (Value.int 25))],
                          [("id", some (Value.int 2)), ("age", some (Value.int 40))]])]
        ⟨⟨"count", none, some "*"⟩, "t", some ⟨"age", ">", Value.int 30, "num"⟩⟩
      = .ok ⟨["COUNT(*)"], [[some (Value.int 1)]]⟩ :=
  (c4_count_star_thm
    [("t", [[("id", some (Value.int 1)), ("age", some (Value.int 25))],
            [("id", some (Value.int 2)), ("age", some (Value.int 40))]])]
    "t" (some ⟨"age", ">", Value.int 30, "num"⟩)
    [[("id", some (Value.int 1)), ("age", some (Value.int 25))],
     [("id", some (Value.int 2)), ("age", some (Value.int 40))]]
    [[("id", some (Value.int 2)), ("age", some (Value.int 40))]]
    (by decide) (by decide)).1

/-- C5: whenever `_apply_where` succeeds, every row of its result has a
non-Null cell in the resolved predicate column — a row whose predicate column
is Null is dropped regardless of the operator, `!=` included (the statement
quantifies over every `WhereClause`, hence over every operator string). -/
theorem c5_null_dropped_thm (rows : List Row) (w : WhereClause) (frows : List Row)
    (h : applyWhere rows w = .ok frows) (r : Row) (hr : r ∈ frows) :
    rowGet r (resolveReal rows w.col) ≠ none := by
  cases rows with
  | nil =>
    rw [applyWhere] at h
    injection h with h
    subst h
    cases hr
  | cons r0 rest =>
    rw [applyWhere] at h
    by_cases hm : memStr (pyLower w.col) ((rowKeys r0).map pyLower) = true
    · rw [if_pos hm] at h
      injection h with h
      subst h
      have hmatch := (List.mem_filter.mp hr).2
      intro hnone
      simp only [rowMatches, hnone] at hmatch
      exact Bool.noConfusion hmatch
    · rw [if_neg hm] at h
      cases h

/-- C5 witness: the Null-aged row is dropped; the surviving row has a
non-Null cell in the resolved column. -/
theorem c5_witness :
    rowGet [("a", some (Value.int 1))]
      (resolveReal [[("a", some (Value.int 1))], [("a", none)]] "a") ≠ none :=
  c5_null_dropped_thm [[("a", some (Value.int 1))], [("a", none)]]
    ⟨"a", "=", Value.int 1, "num"⟩ [[("a", some (Value.int 1))]]
    (by decide) [("a", some (Value.int 1))] (by decide)

/-- C7 (counterexample): a one-row table whose two columns `"A"` and `"a"`
both match the identifier pattern but share a lowercase form.  `SELECT *`
yields columns `["A", "a"]` and row `[1, 2]`, but re-selecting exactly that
column list resolves both names to the first case-insensitive match `"A"` and
yields row `[1, 1]` — the round trip does not return the same output rows. -/
theorem c7_counterexample :
    (isIdentifier "A" = true ∧ isIdentifier "a" = true)
      ∧ executeParsed [("t", [[("A", some (Value.int 1)), ("a", some (Value.int 2))]])]
          ⟨⟨"cols", some ["*"], none⟩, "t", none⟩
          = .ok ⟨["A", "a"], [[some (Value.int 1), some (Value.int 2)]]⟩
      ∧ executeParsed [("t", [[("A", some (Value.int 1)), ("a", some (Value.int 2))]])]
          ⟨⟨"cols", some ["A", "a"], none⟩, "t", none⟩
          = .ok ⟨["A", "A"], [[some (Value.int 1), some (Value.int 1)]]⟩
      ∧ ([[some (Value.int 1), some (Value.int 1)]] : List (List (Option Value)))
          ≠ [[some (Value.int 1), some (Value.int 2)]] := by
  refine ⟨by decide, by decide, by decide, by decide⟩

/-- C7 (amended): the round trip holds under the additional hypothesis the
counterexample forces — the lowercased column names of the first row are
pairwise distinct.  Then `SELECT *` output columns `C` re-projected as an
explicit column list resolve to themselves and the output rows coincide. -/
theorem c7_amended_thm (ts : Tables) (t : String) (r0 : Row) (rest : List Row)
    (C : List String) (R : List (List (Option Value)))
    (hlook : lookupTable ts (pyLower t) = some (r0 :: rest))
    (hident : ∀ c ∈ rowKeys r0, isIdentifier c = true)
    (hnodup : ((rowKeys r0).map pyLower).Nodup)
    (h1 : executeParsed ts ⟨⟨"cols", some ["*"], none⟩, t, none⟩ = .ok ⟨C, R⟩) :
    executeParsed ts ⟨⟨"cols", some C, none⟩, t, none⟩ = .ok ⟨C, R⟩ := by
  have heval : executeParsed ts ⟨⟨"cols", some ["*"], none⟩, t, none⟩
      = .ok ⟨rowKeys r0, (r0 :: rest).map (fun r => (rowKeys r0).map (fun c => rowGet r c))⟩ := by
    simp only [executeParsed, hlook]
    rfl
  rw [heval] at h1
  injection h1 with h1
  injection h1 with hC hR
  subst hC
  subst hR
  have hstar : ∀ c ∈ rowKeys r0, c ≠ "*" := by
    intro c hc he
    have hi := hident c hc
    rw [he] at hi
    exact absurd hi (by decide)
  have hres : resolveColumns (r0 :: rest) (rowKeys r0) = .ok (rowKeys r0) :=
    resolveLoop_self (rowKeys r0) hnodup (rowKeys r0) (fun c hc => hc) hstar
  simp only [executeParsed, hlook, executeRows]
  rw [if_neg (by decide : ¬ (("cols" : String) = "count"))]
  simp only [Option.getD]
  rw [if_neg (show ¬ (rowKeys r0 = ["*"]) from fun he => (hstar "*" (he ▸ by simp)) rfl)]
  simp only [List.isEmpty_cons]
  rw [if_neg (by simp)]
  rw [hres]

/-- C7 witness: the amended round trip on a table with distinct lowercased
column names. -/
theorem c7_amended_witness :
    executeParsed [("t", [[("Name", some (Value.int 1)), ("Age", some (Value.int 2))]])]
        ⟨⟨"cols", some ["Name", "Age"], none⟩, "t", none⟩
      = .ok ⟨["Name", "Age"], [[some (Value.int 1), some (Value.int 2)]]⟩ :=
  c7_amended_thm [("t", [[("Name", some (Value.int 1)), ("Age", some (Value.int 2))]])]
    "t" [("Name", some (Value.int 1)), ("Age", some (Value.int 2))] []
    ["Name", "Age"] [[some (Value.int 1), some (Value.int 2)]]
    (by decide) (by decide) (by decide) (by decide)

/-- C8: `execute` with the registry threaded as explicit state returns the
registry unchanged — every table still holds exactly the same rows in the
same order — the result coincides with the pure `execute` of the same
snapshot, and a second run on the returned registry yields the identical
result. -/
theorem c8_no_mutation_thm (ts : Tables) (sql : String) :
    executeSt sql ts = (execute ts sql, ts)
      ∧ (executeSt sql (executeSt sql ts).2).1 = (executeSt sql ts).1 := by
  have h1 : executeSt sql ts = (execute ts sql, ts) := by
    cases hp : parse sql with
    | error e => simp only [executeSt, execute, hp]
    | ok q =>
      simp only [executeSt, execute, hp, executeParsed, resolveTableSt]
      cases hl : lookupTable ts (pyLower q.fromT) with
      | none => simp [hl]
      | some rows => simp [hl]
  refine ⟨h1, ?_⟩
  rw [h1]
  show (executeSt sql ts).1 = execute ts sql
  rw [h1]

/-- C9: for a `ColumnList` query with at least one post-filter row, the
output column names are exactly the resolution result — names drawn from the
first row's stored original-case keys that agree with the requested names
case-insensitively — not the requested (lowercased) names themselves. -/
theorem c9_resolved_cols_thm (ts : Tables) (t : String) (sel : List String)
    (w : Option WhereClause) (rs : List Row) (f0 : Row) (frest : List Row) (res : List String)
    (hlook : lookupTable ts (pyLower t) = some rs)
    (hw : (match w with | some wc => applyWhere rs wc | none => Except.ok rs) = .ok (f0 :: frest))
    (hstar : "*" ∉ sel)
    (hres : resolveColumns (f0 :: frest) sel = .ok res) :
    executeParsed ts ⟨⟨"cols", some sel, none⟩, t, w⟩
        = .ok ⟨res, (f0 :: frest).map (fun r => res.map (fun c => rowGet r c))⟩
      ∧ (∀ c ∈ res, c ∈ rowKeys f0)
      ∧ res.map pyLower = sel.map pyLower := by
  have hstar' : ∀ c ∈ sel, c ≠ "*" := fun c hc he => hstar (he ▸ hc)
  have hres' : resolveLoop (rowKeys f0) ((rowKeys f0).map pyLower) sel = .ok res := hres
  obtain ⟨hmem, hmap⟩ := resolveLoop_sound (rowKeys f0) sel res hstar' hres'
  refine ⟨?_, hmem, hmap⟩
  simp only [executeParsed, hlook, executeRows, hw]
  rw [if_neg (by decide : ¬ (("cols" : String) = "count"))]
  simp only [Option.getD]
  rw [if_neg (show ¬ (sel = ["*"]) from fun he => hstar (he ▸ by simp))]
  simp only [List.isEmpty_cons]
  rw [if_neg (by simp)]
  rw [hres]

/-- C9 witness: requesting lowercase `"name"` against a table whose stored
column is literally `"Name"` yields output column `"Name"`. -/
theorem c9_witness :
    executeParsed [("t", [[("Name", some (Value.int 7))]])]
        ⟨⟨"cols", some ["name"], none⟩, "t", none⟩
      = .ok ⟨["Name"], [[some (Value.int 7)]]⟩ :=
  (c9_resolved_cols_thm [("t", [[("Name", some (Value.int 7))]])] "t" ["name"] none
    [[("Name", some (Value.int 7))]] [("Name", some (Value.int 7))] [] ["Name"]
    (by decide) (by decide) (by decide) (by decide)).1

end MiniSQL
